import Mathlib

/-!
Verification of the PEP-386-style version library (`packaging/version.py`):
the version grammar parser, the structured `parts` value and its ordering,
the canonical serialization, the suggestion normalizer, and the predicate
matcher.  Every definition is a shallow embedding of the corresponding
Python source; the Python lines mirrored are cited in the doc comments.
-/

deriving instance DecidableEq for Except

namespace Packaging

/-- An element of a Python version `parts` tuple: either an int or a str.
The source stores tags such as `'z'`, `'post'`, `'dev'` next to integers in
the same tuple (`version.py` lines 9-25, 95-131). -/
inductive PElem where
  | int (n : Int)
  | str (s : String)
deriving DecidableEq

/-- Python 2 comparison of two tuple elements: numbers sort before strings
(CPython 2 compares mismatched types with numbers smallest); same-type
values compare natively.  Used by `Version.__lt__` via tuple comparison. -/
def pelemCmp : PElem → PElem → Ordering
  | .int a, .int b => compare a b
  | .int _, .str _ => .lt
  | .str _, .int _ => .gt
  | .str a, .str b => compare a b

/-- Python tuple comparison: lexicographic, shorter tuple first on a tie. -/
def pyListCmp : List PElem → List PElem → Ordering
  | [], [] => .eq
  | [], _ :: _ => .lt
  | _ :: _, [] => .gt
  | a :: as, b :: bs =>
    match pelemCmp a b with
    | .eq => pyListCmp as bs
    | o => o

/-- The `parts` triple built by `Version._parse` (`version.py` line 131):
`(main-release numbers, prerelease tuple, postdev tuple)`. -/
structure Parts where
  release : List PElem
  prerel : List PElem
  postdev : List PElem
deriving DecidableEq

/-- Comparison of two `parts` values, i.e. Python comparison of the two
3-tuples (`Version.__lt__`, `version.py` line 192). -/
def partsCmp (a b : Parts) : Ordering :=
  match pyListCmp a.release b.release with
  | .eq =>
    match pyListCmp a.prerel b.prerel with
    | .eq => pyListCmp a.postdev b.postdev
    | o => o
  | o => o

/-- `_FINAL_MARKER = ('z',)` (`version.py` line 25). -/
def finalMarker : List PElem := [.str "z"]

/-- The last element of a tuple, used to characterise the shape of parsed
`postdev` tuples. -/
def lastElem : List PElem → Option PElem
  | [] => none
  | [a] => some a
  | _ :: a :: as => lastElem (a :: as)

/-- A parsed version: the `parts` tuple plus the `is_final` flag set by
`Version._parse` (`version.py` lines 80, 112, 127). -/
structure Version where
  parts : Parts
  is_final : Bool
deriving DecidableEq

/-- The `ValueError`s that `Version._parse` / `_parse_numdots` can raise
(`version.py` lines 93, 147, 133). -/
inductive VErr where
  | invalidVersion (s : String)
  | leadingZero (num : String) (s : String)
  | hugeMajor (major : Int) (s : String)
deriving DecidableEq

/-! ### The version regular expression

`_VERSION_RE` (`version.py` lines 27-37):
```
^(?P<version>\d+\.\d+)(?P<extraversion>(?:\.\d+)*)
 (?:(?P<prerel>[abc]|rc)(?P<prerelversion>\d+(?:\.\d+)*))?
 (?P<postdev>(\.post(?P<post>\d+))?(\.dev(?P<dev>\d+))?)?$
```
All pieces are greedy; because the sub-languages are disjoint on their
first characters (digits vs `[abc]`/`rc` vs `.post`/`.dev`), maximal-munch
left-to-right matching is exactly the backtracking regex semantics. -/

/-- Maximal run of ASCII digits (`\d+` greedy). -/
def spanDigits (cs : List Char) : List Char × List Char :=
  (cs.takeWhile Char.isDigit, cs.dropWhile Char.isDigit)

/-- Greedy `(?:\.\d+)*`: consume `.digits` groups while possible, returning
the consumed characters and the rest.  Fuel-driven; each step consumes at
least two characters, so `fuel = length` always suffices. -/
def dotNumStarF : Nat → List Char → List Char × List Char
  | 0, cs => ([], cs)
  | fuel + 1, cs =>
    match cs with
    | '.' :: rest =>
      match spanDigits rest with
      | ([], _) => ([], cs)
      | (ds, r) =>
        let (more, rr) := dotNumStarF fuel r
        ('.' :: ds ++ more, rr)
    | _ => ([], cs)

def dotNumStar (cs : List Char) : List Char × List Char :=
  dotNumStarF cs.length cs

/-- The named groups of a successful `_VERSION_RE` match, as raw character
sequences. -/
structure VGroups where
  version : List Char
  extraversion : List Char
  prerel : Option (List Char)
  prerelversion : List Char
  post : Option (List Char)
  dev : Option (List Char)
deriving DecidableEq

/-- `(?:(?P<prerel>[abc]|rc)(?P<prerelversion>\d+(?:\.\d+)*))?`: the
alternation tries `[abc]` before `rc`; the group matches only when the
numeric part is also present, otherwise the whole optional group is empty. -/
def tryPrerel (cs : List Char) : Option (List Char × List Char × List Char) :=
  let tagRest : Option (List Char × List Char) :=
    match cs with
    | 'a' :: r => some (['a'], r)
    | 'b' :: r => some (['b'], r)
    | 'c' :: r => some (['c'], r)
    | 'r' :: 'c' :: r => some (['r', 'c'], r)
    | _ => none
  match tagRest with
  | none => none
  | some (tag, r) =>
    match spanDigits r with
    | ([], _) => none
    | (ds, r2) =>
      let (more, r3) := dotNumStar r2
      some (tag, ds ++ more, r3)

/-- `(\.post(\d+))?` / `(\.dev(\d+))?`: a literal tag followed by digits;
if the digits are missing the optional group matches empty. -/
def tryTagNum (lit : List Char) (cs : List Char) : Option (List Char × List Char) :=
  if lit.isPrefixOf cs then
    match spanDigits (cs.drop lit.length) with
    | ([], _) => none
    | (ds, r) => some (ds, r)
  else none

/-- Full-string match of `_VERSION_RE` (the pattern is anchored `^...$`). -/
def matchVersionRe (cs : List Char) : Option VGroups :=
  match spanDigits cs with
  | ([], _) => none
  | (n1, r1) =>
    match r1 with
    | '.' :: r2 =>
      match spanDigits r2 with
      | ([], _) => none
      | (n2, r3) =>
        let (extra, r4) := dotNumStar r3
        let (pre, r5) :=
          match tryPrerel r4 with
          | some (tag, pv, r) => ((some tag, pv), r)
          | none => (((none : Option (List Char)), ([] : List Char)), r4)
        let (post, r6) :=
          match tryTagNum ".post".toList r5 with
          | some (ds, r) => (some ds, r)
          | none => ((none : Option (List Char)), r5)
        let (dev, r7) :=
          match tryTagNum ".dev".toList r6 with
          | some (ds, r) => (some ds, r)
          | none => ((none : Option (List Char)), r6)
        if r7 = [] then some ⟨n1 ++ '.' :: n2, extra, pre.1, pre.2, post, dev⟩
        else none
    | _ => none

/-! ### `Version._parse` and `Version._parse_numdots` -/

/-- `int(...)` on a run of ASCII digits. -/
def pyInt (ds : List Char) : Int :=
  Int.ofNat (ds.foldl (fun n c => n * 10 + (c.toNat - 48)) 0)

/-- `str.split('.')` (the argument is never empty here, so Python returns
at least one piece; splitting keeps empty pieces). -/
def splitOnCharF (sep : Char) : Nat → List Char → List (List Char)
  | 0, cs => [cs]
  | fuel + 1, cs =>
    match cs.takeWhile (· ≠ sep), cs.dropWhile (· ≠ sep) with
    | seg, [] => [seg]
    | seg, _ :: rest => seg :: splitOnCharF sep fuel rest

def splitOnChar (sep : Char) (cs : List Char) : List (List Char) :=
  splitOnCharF sep cs.length cs

/-- The trailing-zero pop loop of `_parse_numdots` (`version.py` 149-151). -/
def dropTrailingZeros (l : List Int) : List Int :=
  (l.reverse.dropWhile (· == 0)).reverse

/-- The loop body of `_parse_numdots` (`version.py` lines 144-148):
reject a segment with a leading zero, else append its int value. -/
def numdotsStep (full : String) (acc : List Int) (n : List Char) : Except VErr (List Int) :=
  if n.length > 1 ∧ n.head? = some '0' then
    Except.error (.leadingZero (String.mk n) full)
  else Except.ok (acc ++ [pyInt n])

/-- `Version._parse_numdots` (`version.py` lines 135-154): split on `.`,
reject a segment with a leading zero, convert to ints, optionally drop
trailing zeros, pad with zeros up to `pad`. -/
def parse_numdots (drop : Bool) (s : List Char) (full : String) (pad : Nat) :
    Except VErr (List Int) :=
  match (splitOnChar '.' s).foldlM (numdotsStep full) [] with
  | .error e => .error e
  | .ok nums =>
    let nums2 := if drop then dropTrailingZeros nums else nums
    .ok (nums2 ++ List.replicate (pad - nums2.length) 0)

/-- `self.parts[0][0]` — the leading release number.  The regex guarantees
at least two numeric groups, so the fallback is unreachable. -/
def relHead : List PElem → Int
  | .int n :: _ => n
  | _ => 0

/-- The postdev block of `Version._parse` (`version.py` lines 116-130):
`('z', 'post', N [, 'z'])` when a post marker is present, followed by
`('dev', M)` when a dev marker is present, else the final marker. -/
def assemblePostdev (post dev : Option (List Char)) : List PElem :=
  if post.isSome || dev.isSome then
    (match post with
     | some p =>
       [PElem.str "z", PElem.str "post", PElem.int (pyInt p)] ++
         (match dev with
          | none => [PElem.str "z"]
          | some _ => [])
     | none => []) ++
    (match dev with
     | some d => [PElem.str "dev", PElem.int (pyInt d)]
     | none => [])
  else finalMarker

/-- The tail of `Version._parse` (`version.py` lines 116-133): build the
`parts` tuple and `is_final`, then apply the huge-major guard. -/
def assembleVersion (s : String) (ehm : Bool) (block : List Int)
    (pre : List PElem × Bool) (post dev : Option (List Char)) : Except VErr Version :=
  if ehm ∧ relHead (block.map PElem.int) > 1980 then
    .error (.hugeMajor (relHead (block.map PElem.int)) s)
  else .ok ⟨⟨block.map PElem.int, pre.1, assemblePostdev post dev⟩, pre.2 && dev.isNone⟩

/-- `Version._parse` (`version.py` lines 89-133), together with the
`is_final` bookkeeping from `__init__` (line 80) and the huge-major guard
(lines 132-133).  `ehm` is `error_on_huge_major_num` (default `true`),
`dtz` is `drop_trailing_zeros` (default `false`). -/
def parseVersion (s : String) (ehm : Bool) (dtz : Bool) : Except VErr Version :=
  match matchVersionRe s.toList with
  | none => .error (.invalidVersion s)
  | some g =>
    match parse_numdots dtz g.version s 2 with
    | .error e => .error e
    | .ok vb =>
      match (if g.extraversion ≠ [] then
               (parse_numdots dtz (g.extraversion.drop 1) s 0).map (fun eb => vb ++ eb)
             else .ok vb) with
      | .error e => .error e
      | .ok block =>
        match (match g.prerel with
               | some tag =>
                 (parse_numdots dtz g.prerelversion s 1).map
                   (fun pv => (PElem.str (String.mk tag) :: pv.map PElem.int, false))
               | none => .ok (finalMarker, true) :
               Except VErr (List PElem × Bool)) with
        | .error e => .error e
        | .ok pre => assembleVersion s ehm block pre g.post g.dev

/-- Whether `Version(s, ehm, dtz)` succeeds. -/
def parsesCfg (s : String) (ehm dtz : Bool) : Bool :=
  match parseVersion s ehm dtz with
  | .ok _ => true
  | .error _ => false

/-- Whether `Version(s)` with default arguments succeeds. -/
def parses (s : String) : Bool := parsesCfg s true false

/-! ### Comparators (`version.py` lines 184-204) -/

/-- `Version.__eq__`: `self.parts == other.parts`. -/
def veq (x y : Version) : Bool := x.parts == y.parts

/-- `Version.__lt__`: `self.parts < other.parts` (Python tuple order). -/
def vlt (x y : Version) : Bool := partsCmp x.parts y.parts == Ordering.lt

/-- `Version.__gt__`: `not (self.__lt__(other) or self.__eq__(other))`. -/
def vgt (x y : Version) : Bool := !(vlt x y || veq x y)

/-- `Version.__le__`: `self.__eq__(other) or self.__lt__(other)`. -/
def vle (x y : Version) : Bool := veq x y || vlt x y

/-- `Version.__ge__`: `self.__eq__(other) or self.__gt__(other)`. -/
def vge (x y : Version) : Bool := veq x y || vgt x y

/-- `Version(a) < Version(b)` on version strings (default construction);
`false` when either string fails to parse. -/
def ltStr (a b : String) : Bool :=
  match parseVersion a true false, parseVersion b true false with
  | .ok x, .ok y => vlt x y
  | _, _ => false

/-! ### Serialization (`Version.parts_to_str`, `version.py` lines 159-179) -/

/-- `str(v)` for a tuple element. -/
def elemStr : PElem → String
  | .int n => toString n
  | .str s => s

/-- `'.'.join(str(v) for v in l)`. -/
def joinDots (l : List PElem) : String :=
  String.intercalate "." (l.map elemStr)

/-- The postdev rendering loop of `parts_to_str` (`version.py` 173-178):
even positions get a leading `.`. -/
def postdevStr (l : List PElem) : String :=
  (l.enum.foldl
    (fun s p => s ++ (if p.1 % 2 = 0 then "." else "") ++ elemStr p.2) "")

/-- `Version.parts_to_str` (`version.py` lines 159-179). -/
def parts_to_str (p : Parts) : String :=
  let s := joinDots p.release
  let s := if p.prerel ≠ finalMarker then
      (match p.prerel with
       | h :: t => s ++ elemStr h ++ String.intercalate "." (t.map elemStr)
       | [] => s)
    else s
  if p.postdev ≠ [] ∧ p.postdev ≠ finalMarker then
    let pd := if p.postdev.head? = some (PElem.str "z") then p.postdev.tail else p.postdev
    s ++ postdevStr pd
  else s

/-- `Version.__str__`. -/
def vstr (v : Version) : String := parts_to_str v.parts

/-! ### The predicate mini-language (`version.py` lines 323-384)

Regexes:
```
_PREDICATE = (?i)^\s*(\w[\s\w-]*(?:\.\w*)*)(.*)
_VERSIONS  = ^\s*\((?P<versions>.*)\)\s*$
_SPLIT_CMP = ^\s*(<=|>=|<|>|!=|==)\s*([^\s,]+)\s*$
```
The patterns are Python 2 byte-string patterns without `re.UNICODE`, so
`\w = [a-zA-Z0-9_]` and `\s = [ \t\n\r\f\v]`. -/

/-- Python 2 `\s` on byte strings. -/
def pyIsSpace (c : Char) : Bool :=
  c = ' ' ∨ c = '\t' ∨ c = '\n' ∨ c = '\r' ∨ c = '\x0b' ∨ c = '\x0c'

/-- Python 2 `\w` on byte strings. -/
def isWordChar (c : Char) : Bool := c.isAlphanum ∨ c = '_'

/-- `str.strip()`. -/
def pyStrip (s : String) : String :=
  String.mk (((s.toList.dropWhile pyIsSpace).reverse.dropWhile pyIsSpace).reverse)

/-- Greedy `(?:\.\w*)*`: consume `.word*` groups while possible. -/
def dotWordStarF : Nat → List Char → List Char × List Char
  | 0, cs => ([], cs)
  | fuel + 1, cs =>
    match cs with
    | '.' :: rest =>
      let ws := rest.takeWhile isWordChar
      let (more, rr) := dotWordStarF fuel (rest.dropWhile isWordChar)
      ('.' :: ws ++ more, rr)
    | _ => ([], cs)

/-- `_PREDICATE.match`: returns `(group 1, group 2)` = (name part, rest).
Fails only when the first non-space character is not a word character.
Group 2 is `(.*)`, which in Python stops at a newline. -/
def matchPredicateRe (cs : List Char) : Option (List Char × List Char) :=
  match cs.dropWhile pyIsSpace with
  | [] => none
  | c :: r =>
    if isWordChar c then
      let mid := r.takeWhile (fun x => pyIsSpace x ∨ isWordChar x ∨ x = '-')
      let r2 := r.dropWhile (fun x => pyIsSpace x ∨ isWordChar x ∨ x = '-')
      let (dots, r3) := dotWordStarF r2.length r2
      some (c :: mid ++ dots, r3.takeWhile (· ≠ '\n'))
    else none

/-- `_VERSIONS.match` applied (as in the source) to an already-stripped
string: `^\s*\((.*)\)\s*$` succeeds iff the string starts with `(` and
ends with `)` and the middle has no newline (`.` does not match one);
the greedy `.*` pairs the first `(` with the last `)`. -/
def matchVersionsRe (cs : List Char) : Option (List Char) :=
  match cs.dropWhile pyIsSpace with
  | '(' :: rest =>
    match rest.reverse.dropWhile pyIsSpace with
    | ')' :: midRev =>
      let mid := midRev.reverse
      if mid.contains '\n' then none else some mid
    | _ => none
  | _ => none

/-- `_SPLIT_CMP.match`: `^\s*(<=|>=|<|>|!=|==)\s*([^\s,]+)\s*$`, with the
alternation tried in source order. -/
def trySplitCmp (cs : List Char) : Option (String × List Char) :=
  let r := cs.dropWhile pyIsSpace
  let opRest : Option (String × List Char) :=
    match r with
    | '<' :: '=' :: t => some ("<=", t)
    | '>' :: '=' :: t => some (">=", t)
    | '<' :: t => some ("<", t)
    | '>' :: t => some (">", t)
    | '!' :: '=' :: t => some ("!=", t)
    | '=' :: '=' :: t => some ("==", t)
    | _ => none
  match opRest with
  | none => none
  | some (op, t) =>
    let t2 := t.dropWhile pyIsSpace
    let ver := t2.takeWhile (fun c => ¬ pyIsSpace c ∧ c ≠ ',')
    let t3 := t2.dropWhile (fun c => ¬ pyIsSpace c ∧ c ≠ ',')
    if ver = [] then none
    else if t3.all pyIsSpace then some (op, ver) else none

/-- `_split_predicate` (`version.py` lines 330-337): when `_SPLIT_CMP`
does not match, the operator defaults to `==` and the whole (unstripped)
piece is handed to `Version`. -/
def split_predicate (predicate : String) : Except VErr (String × Version) :=
  match trySplitCmp predicate.toList with
  | none =>
    (parseVersion predicate true false).map (fun v => ("==", v))
  | some (comp, ver) =>
    (parseVersion (String.mk ver) true false).map (fun v => (comp, v))

/-- A parsed `VersionPredicate`: project name plus `(operator, Version)`
clauses (`version.py` lines 351-371). -/
structure VersionPredicate where
  name : String
  predicates : List (String × Version)
deriving DecidableEq

/-- The failures of `VersionPredicate.__init__`: the explicit
`ValueError('Bad predicate ...')`, the `ValueError` propagated from
`Version(...)` inside `_split_predicate`, and the **`AttributeError`**
raised by `predicates.groupdict()` when `_VERSIONS.match` returns `None`
(`version.py` lines 365-366) — the latter is an untyped crash, not a
parse error. -/
inductive PredErr where
  | badPredicate (s : String)
  | versionError (e : VErr)
  | attributeError
deriving DecidableEq

/-- `VersionPredicate.__init__` (`version.py` lines 351-371). -/
def parsePredicate (predicate : String) : Except PredErr VersionPredicate :=
  let p := pyStrip predicate
  match matchPredicateRe p.toList with
  | none => .error (.badPredicate p)
  | some (g1, g2) =>
    let name := pyStrip (String.mk g1)
    if g2 = [] then .ok ⟨name, []⟩
    else
      match matchVersionsRe (pyStrip (String.mk g2)).toList with
      | none => .error .attributeError
      | some versions =>
        if versions ≠ [] then
          match (splitOnChar ',' versions).foldlM
              (fun (acc : List (String × Version)) ver =>
                if pyStrip (String.mk ver) ≠ "" then
                  (split_predicate (String.mk ver)).map (fun c => acc ++ [c])
                else .ok acc)
              [] with
          | .ok cls => .ok ⟨name, cls⟩
          | .error e => .error (.versionError e)
        else .ok ⟨name, []⟩

/-- `str(x).startswith(str(y))` for two Versions. -/
def isPrefixCh : List Char → List Char → Bool
  | [], _ => true
  | _ :: _, [] => false
  | a :: as, b :: bs => a = b && isPrefixCh as bs

/-- The canonical string of `y` is a prefix of the canonical string of
`x` — the test used by the `==`-family operators. -/
def vstrStartsWith (x y : Version) : Bool :=
  isPrefixCh (vstr y).toList (vstr x).toList

/-- `VersionPredicate._operators` (`version.py` lines 343-349).  The
table holds exactly these six keys; the catch-all is unreachable. -/
def opEval : String → Version → Version → Bool
  | "<", x, y => vlt x y
  | ">", x, y => vgt x y
  | "<=", x, y => vstrStartsWith x y || vlt x y
  | ">=", x, y => vstrStartsWith x y || vgt x y
  | "==", x, y => vstrStartsWith x y
  | "!=", x, y => !(vstrStartsWith x y)
  | _, _, _ => false

/-- `VersionPredicate.match` on a version string (`version.py` 373-380):
parse the candidate, then AND the clauses. -/
def predMatch (p : VersionPredicate) (version : String) : Except VErr Bool :=
  (parseVersion version true false).map
    (fun v => p.predicates.all (fun c => opEval c.1 v c.2))

/-- `VersionPredicate(pred).match(version)`: the full pipeline. -/
def matchPredicate (pred version : String) : Except PredErr Bool :=
  match parsePredicate pred with
  | .error e => .error e
  | .ok p => (predMatch p version).mapError .versionError

/-! ### `suggest_normalized_version` (`version.py` lines 211-320)

The rewrite chain is an ordered sequence of `str.replace` calls and
`re.sub` substitutions.  All the `re.sub` patterns are either anchored at
the end of the string or are simple local scans, and each is embedded
below as a dedicated function whose doc comment cites the pattern.  The
end-anchored ones share `subEnd`, which scans candidate start positions
left to right exactly as the regex engine does, and replaces the suffix
at the first position whose matcher succeeds. -/

/-- `str.lower()` (ASCII inputs). -/
def pyLower (cs : List Char) : List Char := cs.map Char.toLower

/-- `str.replace(pat, repl)`: all non-overlapping occurrences, scanning
left to right.  Fuel-driven; `pat` is never empty in the source. -/
def pyReplaceF : Nat → List Char → List Char → List Char → List Char
  | 0, _, _, cs => cs
  | fuel + 1, pat, repl, cs =>
    if pat.isPrefixOf cs then repl ++ pyReplaceF fuel pat repl (cs.drop pat.length)
    else
      match cs with
      | [] => []
      | c :: rest => c :: pyReplaceF fuel pat repl rest

def pyReplace (pat repl cs : List Char) : List Char :=
  pyReplaceF (cs.length + 1) pat repl cs

/-- The literal replacement table (`version.py` lines 237-242), in source
order. -/
def literalRepls : List (List Char × List Char) :=
  [("-alpha".toList, "a".toList), ("-beta".toList, "b".toList),
   ("alpha".toList, "a".toList), ("beta".toList, "b".toList),
   ("rc".toList, "c".toList), ("-final".toList, []),
   ("-pre".toList, "c".toList), ("-release".toList, []),
   (".release".toList, []), ("-stable".toList, []),
   ("+".toList, ".".toList), ("_".toList, ".".toList),
   (" ".toList, []), (".final".toList, []), ("final".toList, [])]

/-- End-anchored `re.sub`: try the suffix matcher at each start position
from the left; on the first success replace the whole suffix with the
matcher's output (the pattern is `...$`, so the match runs to the end). -/
def subEndF : Nat → (List Char → Option (List Char)) → List Char → List Char
  | 0, _, cs => cs
  | fuel + 1, f, cs =>
    match f cs with
    | some repl => repl
    | none =>
      match cs with
      | [] => []
      | c :: rest => c :: subEndF fuel f rest

def subEnd (f : List Char → Option (List Char)) (cs : List Char) : List Char :=
  subEndF (cs.length + 1) f cs

/-- `(\d+)$`: a non-empty digit run reaching the end of the string. -/
def digitsToEnd (t : List Char) : Option (List Char) :=
  match spanDigits t with
  | (d :: ds, []) => some (d :: ds)
  | _ => none

/-- `\.?(\d+)$`: greedy optional dot, then digits to the end. -/
def optDotDigits (t : List Char) : Option (List Char) :=
  (match t with
   | '.' :: t2 => digitsToEnd t2
   | _ => none) <|> digitsToEnd t

/-- `re.sub(r"pre$", r"pre0", rs)` (`version.py` line 246). -/
def ruleTrailPre (cs : List Char) : Option (List Char) :=
  if cs = "pre".toList then some "pre0".toList else none

/-- `re.sub(r"dev$", r"dev0", rs)` (`version.py` line 247). -/
def ruleTrailDev (cs : List Char) : Option (List Char) :=
  if cs = "dev".toList then some "dev0".toList else none

/-- `re.sub(r"([abc]|rc)[\-\.](\d+)$", r"\1\2", rs)` (line 252).  The
alternation order `[abc]` then `rc` is irrelevant at a fixed position
(disjoint first characters); the leftmost-start rule makes `rc` win over
its own trailing `c`, which `subEnd` reproduces by scanning leftmost. -/
def ruleTagSepNum (cs : List Char) : Option (List Char) :=
  let tagRest : Option (List Char × List Char) :=
    match cs with
    | 'a' :: t => some (['a'], t)
    | 'b' :: t => some (['b'], t)
    | 'c' :: t => some (['c'], t)
    | 'r' :: 'c' :: t => some (['r', 'c'], t)
    | _ => none
  match tagRest with
  | some (tag, sep :: t2) =>
    if sep = '-' ∨ sep = '.' then (digitsToEnd t2).map (fun ds => tag ++ ds)
    else none
  | _ => none

/-- `re.sub(r"[\-\.](dev)[\-\.]?r?(\d+)$", r".\1\2", rs)` (line 256).
Greedy optional `[-.]` then optional `r`, with regex backtracking order:
both, sep only, `r` only, neither. -/
def ruleDevRev (cs : List Char) : Option (List Char) :=
  match cs with
  | sep :: 'd' :: 'e' :: 'v' :: t =>
    if sep = '-' ∨ sep = '.' then
      ((match t with
        | s2 :: t2 =>
          if s2 = '-' ∨ s2 = '.' then
            (match t2 with
             | 'r' :: t3 => digitsToEnd t3
             | _ => none) <|> digitsToEnd t2
          else none
        | _ => none) <|>
       (match t with
        | 'r' :: t3 => digitsToEnd t3
        | _ => none) <|> digitsToEnd t).map (fun ds => ".dev".toList ++ ds)
    else none
  | _ => none

/-- `re.sub(r"[.~]?([abc])\.?", r"\1", rs)` (line 259): a **global**
substitution.  At each position: greedy optional `[.~]`, a mandatory
`[abc]` (backtracking to no separator cannot help, since `.`/`~` are not
in `[abc]`), then a greedy optional trailing `.`; scanning resumes after
the match. -/
def subTagDotsF : Nat → List Char → List Char
  | 0, cs => cs
  | fuel + 1, cs =>
    match cs with
    | [] => []
    | c :: rest =>
      if c = '.' ∨ c = '~' then
        match rest with
        | l :: rest2 =>
          if l = 'a' ∨ l = 'b' ∨ l = 'c' then
            match rest2 with
            | '.' :: rest3 => l :: subTagDotsF fuel rest3
            | _ => l :: subTagDotsF fuel rest2
          else c :: subTagDotsF fuel rest
        | [] => c :: subTagDotsF fuel rest
      else if c = 'a' ∨ c = 'b' ∨ c = 'c' then
        match rest with
        | '.' :: rest2 => c :: subTagDotsF fuel rest2
        | _ => c :: subTagDotsF fuel rest
      else c :: subTagDotsF fuel rest

def subTagDots (cs : List Char) : List Char := subTagDotsF (cs.length + 1) cs

/-- `re.sub(r"\b0+(\d+)(?!\d)", r"\1", rs)` (line 268): a **global**
substitution.  A match is a maximal digit run of length at least two that
starts with `0` at a word boundary; the run is replaced by itself without
leading zeros (a single `0` if it was all zeros: the greedy `0+`
backtracks one zero so `(\d+)` keeps the last digit).  The scanner
carries whether the previous character was a word character. -/
def stripZeros (run : List Char) : List Char :=
  match run.dropWhile (· = '0') with
  | [] => ['0']
  | r => r

def subLeadZerosF : Nat → Bool → List Char → List Char
  | 0, _, cs => cs
  | fuel + 1, prevWord, cs =>
    match cs with
    | [] => []
    | c :: rest =>
      if ¬ prevWord ∧ c = '0' then
        match spanDigits (c :: rest) with
        | (d :: d2 :: ds, r) => stripZeros (d :: d2 :: ds) ++ subLeadZerosF fuel true r
        | _ => c :: subLeadZerosF fuel (isWordChar c) rest
      else c :: subLeadZerosF fuel (isWordChar c) rest

def subLeadZeros (cs : List Char) : List Char := subLeadZerosF (cs.length + 1) false cs

/-- `re.sub(r"(\d+[abc])$", r"\g<1>0", rs)` (line 273). -/
def ruleBareTag (cs : List Char) : Option (List Char) :=
  match spanDigits cs with
  | (d :: ds, [l]) =>
    if l = 'a' ∨ l = 'b' ∨ l = 'c' then some (d :: ds ++ [l, '0']) else none
  | _ => none

/-- `re.sub(r"\.?(dev-r|dev\.r)\.?(\d+)$", r".dev\2", rs)` (line 276). -/
def ruleDevRTag (cs : List Char) : Option (List Char) :=
  let body : List Char → Option (List Char) := fun t =>
    match t with
    | 'd' :: 'e' :: 'v' :: '-' :: 'r' :: t2 => optDotDigits t2
    | 'd' :: 'e' :: 'v' :: '.' :: 'r' :: t2 => optDotDigits t2
    | _ => none
  ((match cs with
    | '.' :: t => body t
    | _ => none) <|> body cs).map (fun ds => ".dev".toList ++ ds)

/-- `re.sub(r"-(a|b|c)(\d+)$", r"\1\2", rs)` (line 279). -/
def ruleDashTag (cs : List Char) : Option (List Char) :=
  match cs with
  | '-' :: l :: t =>
    if l = 'a' ∨ l = 'b' ∨ l = 'c' then (digitsToEnd t).map (fun ds => l :: ds)
    else none
  | _ => none

/-- `re.sub(r"[\.\-](dev|devel)$", r".dev0", rs)` (line 282): the
alternation tries `dev` first, which only completes when the string ends
right there; otherwise `devel`. -/
def ruleSepDevel (cs : List Char) : Option (List Char) :=
  match cs with
  | sep :: t =>
    if sep = '.' ∨ sep = '-' then
      if t = "dev".toList ∨ t = "devel".toList then some ".dev0".toList else none
    else none
  | _ => none

/-- `re.sub(r"(?![\.\-])dev$", r".dev0", rs)` (line 285): the negative
lookahead is vacuous (the next character is necessarily `d`), so this is
a bare trailing `dev`. -/
def ruleBareDevEnd (cs : List Char) : Option (List Char) :=
  if cs = "dev".toList then some ".dev0".toList else none

/-- `re.sub(r"(final|stable)$", "", rs)` (line 288). -/
def ruleFinalStable (cs : List Char) : Option (List Char) :=
  if cs = "final".toList ∨ cs = "stable".toList then some [] else none

/-- `re.sub(r"\.?(r|-|-r)\.?(\d+)$", r".post\2", rs)` (line 294), with
the alternation in source order `r`, `-`, `-r` and full backtracking. -/
def rulePostRev (cs : List Char) : Option (List Char) :=
  let body : List Char → Option (List Char) := fun t =>
    (match t with
     | 'r' :: t2 => optDotDigits t2
     | _ => none) <|>
    (match t with
     | '-' :: t2 => optDotDigits t2
     | _ => none) <|>
    (match t with
     | '-' :: 'r' :: t2 => optDotDigits t2
     | _ => none)
  ((match cs with
    | '.' :: t => body t
    | _ => none) <|> body cs).map (fun ds => ".post".toList ++ ds)

/-- `re.sub(r"\.?(dev|git|bzr)\.?(\d+)$", r".dev\2", rs)` (line 303). -/
def ruleDevGitBzr (cs : List Char) : Option (List Char) :=
  let body : List Char → Option (List Char) := fun t =>
    match t with
    | 'd' :: 'e' :: 'v' :: t2 => optDotDigits t2
    | 'g' :: 'i' :: 't' :: t2 => optDotDigits t2
    | 'b' :: 'z' :: 'r' :: t2 => optDotDigits t2
    | _ => none
  ((match cs with
    | '.' :: t => body t
    | _ => none) <|> body cs).map (fun ds => ".dev".toList ++ ds)

/-- `re.sub(r"\.?(pre|preview|-c)(\d+)$", r"c\g<2>", rs)` (line 310):
note the replacement drops any leading dot. -/
def rulePreview (cs : List Char) : Option (List Char) :=
  let body : List Char → Option (List Char) := fun t =>
    (match t with
     | 'p' :: 'r' :: 'e' :: t2 => digitsToEnd t2
     | _ => none) <|>
    (match t with
     | 'p' :: 'r' :: 'e' :: 'v' :: 'i' :: 'e' :: 'w' :: t2 => digitsToEnd t2
     | _ => none) <|>
    (match t with
     | '-' :: 'c' :: t2 => digitsToEnd t2
     | _ => none)
  ((match cs with
    | '.' :: t => body t
    | _ => none) <|> body cs).map (fun ds => 'c' :: ds)

/-- `re.sub(r"p(\d+)$", r".post\1", rs)` (line 313). -/
def ruleTclPost (cs : List Char) : Option (List Char) :=
  match cs with
  | 'p' :: t => (digitsToEnd t).map (fun ds => ".post".toList ++ ds)
  | _ => none

/-- The full rewrite chain of `suggest_normalized_version`
(`version.py` lines 234-313), applied in source order. -/
def normalize (s : String) : String :=
  let rs := pyLower s.toList
  let rs := literalRepls.foldl (fun r p => pyReplace p.1 p.2 r) rs
  let rs := subEnd ruleTrailPre rs
  let rs := subEnd ruleTrailDev rs
  let rs := subEnd ruleTagSepNum rs
  let rs := subEnd ruleDevRev rs
  let rs := subTagDots rs
  let rs := match rs with
            | 'v' :: t => t
            | _ => rs
  let rs := subLeadZeros rs
  let rs := subEnd ruleBareTag rs
  let rs := subEnd ruleDevRTag rs
  let rs := subEnd ruleDashTag rs
  let rs := subEnd ruleSepDevel rs
  let rs := subEnd ruleBareDevEnd rs
  let rs := subEnd ruleFinalStable rs
  let rs := subEnd rulePostRev rs
  let rs := subEnd ruleDevGitBzr rs
  let rs := subEnd rulePreview rs
  let rs := subEnd ruleTclPost rs
  String.mk rs

/-- `suggest_normalized_version` (`version.py` lines 211-320): return the
input unchanged when it already parses; otherwise run the rewrite chain
and return the result when that parses; otherwise `None`.  Both parse
attempts use the default constructor arguments (huge-major guard on,
trailing zeros kept). -/
def suggest_normalized_version (s : String) : Option String :=
  if parses s then some s
  else if parses (normalize s) then some (normalize s)
  else none

end Packaging

open Packaging

/-! ## Cross-checks against the repository's own test suite
(`tests/test_version.py`); these anonymous examples validate the
embedding before the claim theorems below. -/

example : parses "1.0" = true := by decide
example : parses "1" = false := by decide
example : parseVersion "1.0.post456" true false =
    .ok ⟨⟨[.int 1, .int 0], finalMarker, [.str "z", .str "post", .int 456, .str "z"]⟩, true⟩ := by
  decide
example : vstr ⟨⟨[.int 1, .int 0], finalMarker, [.str "z", .str "post", .int 456, .str "z"]⟩, true⟩
    = "1.0.post456.z" := by decide
example : ltStr "1.0a1" "1.0b1" = true := by decide
example : ltStr "1.0rc2" "1.0.dev345" = true := by decide
example : matchPredicate "Hey (>=2.5,<2.7)" "2.6" = .ok true := by decide
example : matchPredicate "Ho (<3.0,!=2.6)" "2.6.0" = .ok false := by decide
example : matchPredicate "zope.event (3.4.0)" "3.4.1" = .ok false := by decide
example : parsePredicate "Name (<1.0" = .error .attributeError := by decide
example : parsePredicate "" = .error (.badPredicate "") := by decide
example : matchPredicate "Hey 2.5" "2.5.1" = .ok true := by decide
example : matchPredicate "Ho (<3.0,!=2.5)" "2.6.0" = .ok true := by decide
example : matchPredicate "Hey (<=2.5)" "2.5.9" = .ok true := by decide
-- normalizer cross-checks against the repo's test_suggest_normalized_version
example : suggest_normalized_version "1.0" = some "1.0" := by decide
example : suggest_normalized_version "1.0-alpha1" = some "1.0a1" := by decide
example : suggest_normalized_version "1.0c2" = some "1.0c2" := by decide
example : suggest_normalized_version "walla walla washington" = none := by decide
example : suggest_normalized_version "2.4c1" = some "2.4c1" := by decide
example : suggest_normalized_version "v1.0" = some "1.0" := by decide
example : suggest_normalized_version "0.4a1.r10" = some "0.4a1.post10" := by decide
example : suggest_normalized_version "0.7a1dev-r66608" = some "0.7a1.dev66608" := by decide
example : suggest_normalized_version "0.6a9.dev-r41475" = some "0.6a9.dev41475" := by decide
example : suggest_normalized_version "2.4preview1" = some "2.4c1" := by decide
example : suggest_normalized_version "2.4pre1" = some "2.4c1" := by decide
example : suggest_normalized_version "2.1-rc2" = some "2.1c2" := by decide
example : suggest_normalized_version "0.1dev" = some "0.1.dev0" := by decide
example : suggest_normalized_version "0.1.dev" = some "0.1.dev0" := by decide
example : suggest_normalized_version "9.0.0+r2363" = some "9.0.0.post2363" := by decide
example : suggest_normalized_version "9.0.0pre1" = some "9.0.0c1" := by decide
example : suggest_normalized_version "1.4p1" = some "1.4.post1" := by decide
example : suggest_normalized_version "2009.01.03" = none := by decide
example : normalize "2009.01.03" = "2009.1.3" := by decide

/-! ## Claim theorems -/

/-- **C1.** The spec's round-trip property fails in the code: serializing
`parse("1.0.post456")` does *not* omit the trailing synthetic `'z'`
filler — `parts_to_str` strips only a leading `'z'` — so the canonical
string is `"1.0.post456.z"`, which does not re-parse at all. -/
theorem c1_roundtrip_breaks_on_post_only :
    parseVersion "1.0.post456" true false =
      .ok ⟨⟨[.int 1, .int 0], finalMarker, [.str "z", .str "post", .int 456, .str "z"]⟩, true⟩ ∧
    vstr ⟨⟨[.int 1, .int 0], finalMarker, [.str "z", .str "post", .int 456, .str "z"]⟩, true⟩ =
      "1.0.post456.z" ∧
    parseVersion "1.0.post456.z" true false = .error (.invalidVersion "1.0.post456.z") := by
  decide

/-- **C2.** Version equality does not zero-pad: `Version.__eq__` compares
the exact `parts` tuples, so under the default configuration
`parse("1.2") != parse("1.2.0.0.0")` and `parse("1.2") != parse("1.2.0")`,
contrary to the claim (and to the repository's own
`test_comparision_trailing_zero`).  Equality holds only with the opt-in
`drop_trailing_zeros=True`. -/
theorem c2_equality_does_not_zero_pad :
    parseVersion "1.2" true false =
      .ok ⟨⟨[.int 1, .int 2], finalMarker, finalMarker⟩, true⟩ ∧
    parseVersion "1.2.0.0.0" true false =
      .ok ⟨⟨[.int 1, .int 2, .int 0, .int 0, .int 0], finalMarker, finalMarker⟩, true⟩ ∧
    parseVersion "1.2.0" true false =
      .ok ⟨⟨[.int 1, .int 2, .int 0], finalMarker, finalMarker⟩, true⟩ ∧
    veq ⟨⟨[.int 1, .int 2], finalMarker, finalMarker⟩, true⟩
        ⟨⟨[.int 1, .int 2, .int 0, .int 0, .int 0], finalMarker, finalMarker⟩, true⟩ = false ∧
    veq ⟨⟨[.int 1, .int 2], finalMarker, finalMarker⟩, true⟩
        ⟨⟨[.int 1, .int 2, .int 0], finalMarker, finalMarker⟩, true⟩ = false ∧
    parseVersion "1.2.0.0.0" true true =
      .ok ⟨⟨[.int 1, .int 2], finalMarker, finalMarker⟩, true⟩ := by
  decide

/-- **C3.** Predicate matching is the AND of the clauses under the
`_operators` table: `==` is the canonical-string prefix test, `!=` its
negation, `<=`/`>=` are prefix-or-strict-order, `<`/`>` pure structural
order; the three examples from the spec evaluate as claimed. -/
theorem c3_predicate_match_semantics :
    matchPredicate "Hey (>=2.5,<2.7)" "2.6" = .ok true ∧
    matchPredicate "Ho (<3.0,!=2.6)" "2.6.0" = .ok false ∧
    matchPredicate "zope.event (3.4.0)" "3.4.1" = .ok false ∧
    (∀ p x, predMatch p x = (parseVersion x true false).map
        (fun v => p.predicates.all (fun c => opEval c.1 v c.2))) ∧
    (∀ x y, opEval "==" x y = vstrStartsWith x y ∧
            opEval "!=" x y = !(vstrStartsWith x y) ∧
            opEval "<=" x y = (vstrStartsWith x y || vlt x y) ∧
            opEval ">=" x y = (vstrStartsWith x y || vgt x y) ∧
            opEval "<" x y = vlt x y ∧
            opEval ">" x y = vgt x y) :=
  ⟨by decide, by decide, by decide, fun _ _ => rfl,
   fun _ _ => ⟨rfl, rfl, rfl, rfl, rfl, rfl⟩⟩

/-- Helper: `_parse_numdots` with `pad_zeros_length = 1` never returns an
empty list (it pads with a zero). -/
theorem parse_numdots_pad_one_ne_nil (dtz : Bool) (cs : List Char) (full : String)
    (pv : List Int) (h : parse_numdots dtz cs full 1 = .ok pv) : pv ≠ [] := by
  unfold parse_numdots at h
  cases hfold : (splitOnChar '.' cs).foldlM (numdotsStep full) ([] : List Int) with
  | error e => rw [hfold] at h; exact absurd h (by simp)
  | ok nums =>
    rw [hfold] at h
    simp only [Except.ok.injEq] at h
    subst h
    intro hcontra
    rcases List.append_eq_nil.mp hcontra with ⟨h1, h2⟩
    rw [h1] at h2
    simp at h2

/-- **C4 (counterexample).** The claimed iff fails at the post-only
version `"1.0.post456"`: its `is_final` flag is `true` although its
`postdev` component is not the `"final"` sentinel. -/
theorem c4_counterexample :
    parseVersion "1.0.post456" true false =
      .ok ⟨⟨[.int 1, .int 0], finalMarker, [.str "z", .str "post", .int 456, .str "z"]⟩, true⟩ ∧
    (⟨⟨[.int 1, .int 0], finalMarker,
        [.str "z", .str "post", .int 456, .str "z"]⟩, true⟩ : Version).is_final = true ∧
    (⟨⟨[.int 1, .int 0], finalMarker,
        [.str "z", .str "post", .int 456, .str "z"]⟩, true⟩ : Version).parts.postdev
      ≠ finalMarker := by
  decide

/-- **C4 (amended).** For every successfully parsed version string (default
configuration), `is_final` is true iff the prerelease component is the
`"final"` sentinel *and the last element of the postdev component is the
sentinel letter `'z'`* — which holds both for the sentinel itself and for
post-without-dev tuples such as that of `"1.0.post456"`.  (`_parse` sets
`is_final = False` only for a prerelease tag or a dev marker.) -/
theorem assembleVersion_ok (s : String) (ehm : Bool) (block : List Int)
    (pre : List PElem × Bool) (post dev : Option (List Char)) (v : Version)
    (h : assembleVersion s ehm block pre post dev = .ok v) :
    v = ⟨⟨block.map PElem.int, pre.1, assemblePostdev post dev⟩, pre.2 && dev.isNone⟩ := by
  unfold assembleVersion at h
  split at h
  · exact absurd h (by simp)
  · simp only [Except.ok.injEq] at h
    exact h.symm

theorem c4_amended (s : String) (v : Version)
    (h : parseVersion s true false = .ok v) :
    v.is_final = true ↔
      (v.parts.prerel = finalMarker ∧ lastElem v.parts.postdev = some (PElem.str "z")) := by
  unfold parseVersion at h
  split at h
  · exact absurd h (by simp)
  · rename_i g hg
    split at h
    · exact absurd h (by simp)
    · rename_i vb hvb
      split at h
      · exact absurd h (by simp)
      · rename_i block hblock
        split at h
        · exact absurd h (by simp)
        · rename_i pre hpre
          have hv := assembleVersion_ok s true block pre g.post g.dev v h
          subst hv
          split at hpre
          · rename_i tag htag
            cases h3 : parse_numdots false g.prerelversion s 1 with
            | error e => rw [h3] at hpre; exact absurd hpre (by simp [Except.map])
            | ok pv =>
              rw [h3] at hpre
              simp only [Except.map, Except.ok.injEq] at hpre
              subst hpre
              simp only [Bool.false_and]
              constructor
              · intro hf; exact absurd hf (by simp)
              · rintro ⟨hcon, -⟩
                exfalso
                have hne := parse_numdots_pad_one_ne_nil false g.prerelversion s pv h3
                cases pv with
                | nil => exact hne rfl
                | cons a as => simp [finalMarker] at hcon
          · simp only [Except.ok.injEq] at hpre
            subst hpre
            simp only [Bool.true_and]
            cases hpost : g.post with
            | some p =>
              cases hdev : g.dev with
              | some d => simp [assemblePostdev, hpost, hdev, finalMarker, lastElem]
              | none => simp [assemblePostdev, hpost, hdev, finalMarker, lastElem]
            | none =>
              cases hdev : g.dev with
              | some d => simp [assemblePostdev, hpost, hdev, finalMarker, lastElem]
              | none => simp [assemblePostdev, hpost, hdev, finalMarker, lastElem]

/-- Witness for C4 (amended), at the final version `"1.0"`. -/
theorem c4_amended_witness :
    (⟨⟨[.int 1, .int 0], finalMarker, finalMarker⟩, true⟩ : Version).is_final = true ↔
      ((⟨⟨[.int 1, .int 0], finalMarker, finalMarker⟩, true⟩ : Version).parts.prerel
          = finalMarker ∧
        lastElem (⟨⟨[.int 1, .int 0], finalMarker, finalMarker⟩,
          true⟩ : Version).parts.postdev = some (PElem.str "z")) :=
  c4_amended "1.0" ⟨⟨[.int 1, .int 0], finalMarker, finalMarker⟩, true⟩ (by decide)

/-- **C5.** The comparator orders the qualifier chain exactly as the spec
enumerates. -/
theorem c5_ordering_chain :
    ltStr "1.0a1" "1.0b1" = true ∧ ltStr "1.0b1" "1.0c1" = true ∧
    ltStr "1.0c1" "1.0rc2" = true ∧ ltStr "1.0rc2" "1.0.dev345" = true ∧
    ltStr "1.0.dev345" "1.0" = true ∧ ltStr "1.0" "1.0.post456.dev623" = true ∧
    ltStr "1.0.post456.dev623" "1.0.post456" = true ∧
    ltStr "1.0.post456" "1.0.post1234" = true := by
  decide

/-- **C6 (counterexample).** `rc` is accepted by the grammar but stored as
written, so `parse("1.0rc1")` and `parse("1.0c1")` are *not* equal: their
prerelease tuples carry the distinct tags `'rc'` and `'c'`. -/
theorem c6_counterexample :
    parseVersion "1.0rc1" true false =
      .ok ⟨⟨[.int 1, .int 0], [.str "rc", .int 1], finalMarker⟩, false⟩ ∧
    parseVersion "1.0c1" true false =
      .ok ⟨⟨[.int 1, .int 0], [.str "c", .int 1], finalMarker⟩, false⟩ ∧
    veq ⟨⟨[.int 1, .int 0], [.str "rc", .int 1], finalMarker⟩, false⟩
        ⟨⟨[.int 1, .int 0], [.str "c", .int 1], finalMarker⟩, false⟩ = false := by
  decide

/-- **C6 (amended).** The `rc` spelling is accepted by the grammar as an
alternative release-candidate tag but is kept distinct in the parsed
value: `parse("1.0rc1") ≠ parse("1.0c1")`; the string tags still order the
two spellings consistently below the final release
(`'c' < 'rc' < 'z'`), so `parse("1.0c1") < parse("1.0rc1") < parse("1.0")`. -/
theorem c6_amended_rc_distinct :
    parseVersion "1.0rc1" true false =
      .ok ⟨⟨[.int 1, .int 0], [.str "rc", .int 1], finalMarker⟩, false⟩ ∧
    veq ⟨⟨[.int 1, .int 0], [.str "rc", .int 1], finalMarker⟩, false⟩
        ⟨⟨[.int 1, .int 0], [.str "c", .int 1], finalMarker⟩, false⟩ = false ∧
    ltStr "1.0c1" "1.0rc1" = true ∧
    ltStr "1.0rc1" "1.0" = true := by
  decide

/-- **C7.** The huge-major guard: `parse("1981.0")` fails with the
huge-major error by default, `parse("1980.0")` succeeds, and disabling the
guard lets `parse("1981.0")` succeed. -/
theorem c7_huge_major_guard :
    parseVersion "1981.0" true false = .error (.hugeMajor 1981 "1981.0") ∧
    parsesCfg "1980.0" true false = true ∧
    parsesCfg "1981.0" false false = true := by
  decide

/-- **C8.** `suggest_normalized_version` is idempotent on its successful
outputs: whatever string it returns parses, and feeding it back returns it
unchanged via the identity short-circuit. -/
theorem c8_suggest_idempotent (s s2 : String)
    (h : suggest_normalized_version s = some s2) :
    parses s2 = true ∧ suggest_normalized_version s2 = some s2 := by
  unfold suggest_normalized_version at h
  by_cases h1 : parses s = true
  · simp only [h1, if_true] at h
    simp only [Option.some.injEq] at h
    subst h
    refine ⟨h1, ?_⟩
    unfold suggest_normalized_version
    simp [h1]
  · simp only [Bool.not_eq_true] at h1
    simp only [h1, Bool.false_eq_true, if_false] at h
    by_cases h2 : parses (normalize s) = true
    · simp only [h2, if_true, Option.some.injEq] at h
      subst h
      refine ⟨h2, ?_⟩
      unfold suggest_normalized_version
      simp [h2]
    · simp only [Bool.not_eq_true] at h2
      simp only [h2, Bool.false_eq_true, if_false] at h
      exact absurd h (by simp)

/-- Witness for C8, at the already-rational string `"1.0"`. -/
theorem c8_suggest_idempotent_witness :
    suggest_normalized_version "1.0" = some "1.0" ∧
    (parses "1.0" = true ∧ suggest_normalized_version "1.0" = some "1.0") :=
  ⟨by decide, c8_suggest_idempotent "1.0" "1.0" (by decide)⟩

/-- **C9.** A clause list with an unmatched opening parenthesis does not
produce the typed `ValueError('Bad predicate ...')`: `_VERSIONS.match`
returns `None` and the code calls `.groupdict()` on it, an
`AttributeError` crash (modelled as the distinct `attributeError`
constructor).  Empty input, by contrast, does get the typed error. -/
theorem c9_unclosed_paren_crash :
    parsePredicate "Name (<1.0" = .error .attributeError ∧
    parsePredicate "" = .error (.badPredicate "") := by
  decide

/-- **C10.** The normalizer applies the default huge-major guard on both
parse attempts: the rewrite chain turns `"2009.01.03"` into `"2009.1.3"`
(leading zeros stripped), which the grammar accepts once the guard is
disabled, yet `suggest("2009.01.03")` returns `None` because the guard is
on. -/
theorem c10_calendar_not_rescued :
    suggest_normalized_version "2009.01.03" = none ∧
    normalize "2009.01.03" = "2009.1.3" ∧
    parseVersion "2009.1.3" true false = .error (.hugeMajor 2009 "2009.1.3") ∧
    parsesCfg "2009.1.3" false false = true := by
  decide
